import Mathlib

/-!
Verification of the apt-remote package synchronisation tool.

The Rust sources are embedded shallowly: pure data (the `uri.toml` manifest
model of `src/uri.rs`) becomes Lean structures, the TOML (de)serialisation
derived by serde becomes an explicit encoder/decoder over a TOML value tree,
and the phase orchestration of `src/commands/{set,get,install}.rs` becomes
functions from an oracle environment (remote command outputs, HTTP responses,
upload results) to the list of externally visible events plus a result.
Rust panics (`unwrap` on `None`) are a distinct outcome, separate from
`Result::Err`.
-/

namespace AptRemote

/-- Outcome of running a piece of Rust code: a normal `Result::Ok`, a
`Result::Err` carrying the rendered `anyhow` message, or a panic
(e.g. `Option::unwrap` on `None`). -/
inductive RunRes (α : Type) where
  | ok (a : α)
  | err (msg : String)
  | panic (msg : String)
deriving DecidableEq, Repr

/- ## String helpers

Kernel-reducible counterparts of the Rust string operations used by the
sources, written by structural recursion over the character list. -/

/-- Split a character list on a separator, Rust `str::split(sep)`:
the result is always non-empty, separators are not kept. -/
def splitOnChar (sep : Char) : List Char → List (List Char)
  | [] => [[]]
  | c :: cs =>
    if c = sep then [] :: splitOnChar sep cs
    else
      match splitOnChar sep cs with
      | [] => [[c]]
      | p :: ps => (c :: p) :: ps

/-- Lower-case a string, Rust `str::to_lowercase` restricted to ASCII
(the checksum kinds it is applied to are ASCII). -/
def strToLower (s : String) : String :=
  ⟨s.data.map Char.toLower⟩

/-- The characters after the last `'.'` of a list, `none` when it has no
`'.'`. Backs the model of Rust `Path::extension`. -/
def afterLastDot : List Char → Option (List Char)
  | [] => none
  | c :: cs =>
    match afterLastDot cs with
    | some e => some e
    | none => if c = '.' then some cs else none

/-- Rust `Path::extension` on a final path component: the part after the
last `'.'`, except that a leading-dot name with no further dot has no
extension. -/
def extOf (fname : String) : Option String :=
  match fname.data with
  | [] => none
  | c0 :: rest =>
    if c0 = '.' then (afterLastDot rest).map (fun e => ⟨e⟩)
    else (afterLastDot (c0 :: rest)).map (fun e => ⟨e⟩)

/-- Rust `Path::with_extension("")` on a final path component: drop the
extension together with its dot; a name without an extension is unchanged. -/
def stripExtName (fname : String) : String :=
  match extOf fname with
  | none => fname
  | some e => ⟨fname.data.take (fname.data.length - (e.data.length + 1))⟩

/-- The first whitespace-separated word of `s`, with the fallback string the
code passes to `unwrap_or` when the output is all whitespace. Models
`output.split_whitespace().next().unwrap_or("ERROR: checksum output unwrap failed.")`
in `verify_remote_checksums`. -/
def firstWord (s : String) : String :=
  match (s.data.dropWhile (fun c => c.isWhitespace)).takeWhile
      (fun c => ¬ c.isWhitespace) with
  | [] => "ERROR: checksum output unwrap failed."
  | l => ⟨l⟩

/-- Rust `Path::join` for the paths the tool builds (base never ends in a
slash in the sources). -/
def pathJoin (base comp : String) : String :=
  base ++ "/" ++ comp

/- ## Data model (`src/uri.rs`) -/

/-- The type of checksum used to verify package integrity (`uri.rs`). -/
inductive ChecksumKind where
  | SHA256
  | MD5
deriving DecidableEq, Repr

/-- `ChecksumKind::new` (`uri.rs` lines 32–40): map a checksum tool name to
the enum, any other string is an error. -/
def ChecksumKind.new (kind_str : String) : Except String ChecksumKind :=
  if kind_str = "sha256sum" then .ok .SHA256
  else if kind_str = "md5sum" then .ok .MD5
  else .error "Checksum not valid"

/-- A checksum record for a package (`uri.rs`). -/
structure Checksum where
  kind : ChecksumKind
  value : String
deriving DecidableEq, Repr

/-- A single package entry of the `uri.toml` file (`uri.rs`). -/
structure PackageEntry where
  uri : String
  size : Nat
  checksum : Option Checksum
deriving DecidableEq, Repr

/-- The mode of operation for remote installation (`uri.rs`). -/
inductive RemoteMode where
  | Install
  | Update
  | Upgrade
deriving DecidableEq, Repr

/-- The full `uri.toml` manifest (`uri.rs`). The Rust `HashMap` of packages
is modelled as an association list in the map's iteration order: every loop
of the sources iterates the same map, hence sees the same order. -/
structure UriFile where
  mode : RemoteMode
  arch : String
  total_size : Option Nat
  install_order : List String
  packages : List (String × PackageEntry)
deriving DecidableEq, Repr

/- ## TOML model

The sources serialise `UriFile` with `toml::to_string` and parse it back
with `toml::from_str`, both driven by the serde instances derived from the
struct definitions above. The external TOML text layer is taken as faithful;
what is embedded is the derived (de)serialisation into a TOML value tree:
unit enum variants as strings, structs and the package map as tables, a
`None` optional field omitted on write and absent-means-`None` on read. -/

/-- A TOML value tree (the fragment `uri.toml` uses). -/
inductive Toml where
  | str (s : String)
  | int (n : Nat)
  | arr (xs : List Toml)
  | table (kvs : List (String × Toml))

/-- Look a key up in a TOML table body (first binding wins). -/
def tomlLookup (kvs : List (String × Toml)) (k : String) : Option Toml :=
  match kvs with
  | [] => none
  | (k', v) :: rest => if k' = k then some v else tomlLookup rest k

/-- Derived serde serialisation of `ChecksumKind`: a unit variant is its
name as a TOML string. -/
def ChecksumKind.encode : ChecksumKind → Toml
  | .SHA256 => .str "SHA256"
  | .MD5 => .str "MD5"

/-- Derived serde deserialisation of `ChecksumKind`. -/
def ChecksumKind.decode : Toml → Option ChecksumKind
  | .str "SHA256" => some .SHA256
  | .str "MD5" => some .MD5
  | _ => none

/-- Derived serde serialisation of `Checksum`. -/
def Checksum.encode (c : Checksum) : Toml :=
  .table [("kind", c.kind.encode), ("value", .str c.value)]

/-- Derived serde deserialisation of `Checksum`. -/
def Checksum.decode (t : Toml) : Option Checksum :=
  match t with
  | .table kvs =>
    match tomlLookup kvs "kind", tomlLookup kvs "value" with
    | some kt, some (.str v) => (ChecksumKind.decode kt).map (fun k => ⟨k, v⟩)
    | _, _ => none
  | _ => none

/-- Derived serde serialisation of `PackageEntry`: the `checksum` field is
omitted when `None`. -/
def PackageEntry.encode (p : PackageEntry) : Toml :=
  .table ([("uri", .str p.uri), ("size", .int p.size)] ++
    (match p.checksum with
     | none => []
     | some c => [("checksum", c.encode)]))

/-- Derived serde deserialisation of `PackageEntry`: a missing `checksum`
key means `None`. -/
def PackageEntry.decode (t : Toml) : Option PackageEntry :=
  match t with
  | .table kvs =>
    match tomlLookup kvs "uri", tomlLookup kvs "size" with
    | some (.str uri), some (.int size) =>
      match tomlLookup kvs "checksum" with
      | none => some ⟨uri, size, none⟩
      | some ct => (Checksum.decode ct).map (fun c => ⟨uri, size, some c⟩)
    | _, _ => none
  | _ => none

/-- Serialisation of the package map: one table binding per entry, in map
iteration order. -/
def encodePackages (ps : List (String × PackageEntry)) : List (String × Toml) :=
  ps.map (fun kp => (kp.1, kp.2.encode))

/-- Deserialisation of the package map body. -/
def decodePackages : List (String × Toml) → Option (List (String × PackageEntry))
  | [] => some []
  | (k, v) :: rest =>
    match PackageEntry.decode v, decodePackages rest with
    | some e, some es => some ((k, e) :: es)
    | _, _ => none

/-- Serialisation of the install order: a TOML array of strings. -/
def encodeStrList (l : List String) : Toml :=
  .arr (l.map Toml.str)

/-- Deserialisation of a TOML array of strings. -/
def decodeStrList : List Toml → Option (List String)
  | [] => some []
  | .str s :: rest => (decodeStrList rest).map (fun l => s :: l)
  | _ :: _ => none

/-- Derived serde serialisation of `RemoteMode`. -/
def RemoteMode.encode : RemoteMode → Toml
  | .Install => .str "Install"
  | .Update => .str "Update"
  | .Upgrade => .str "Upgrade"

/-- Derived serde deserialisation of `RemoteMode`. -/
def RemoteMode.decode : Toml → Option RemoteMode
  | .str "Install" => some .Install
  | .str "Update" => some .Update
  | .str "Upgrade" => some .Upgrade
  | _ => none

/-- Derived serde serialisation of the whole `UriFile`; `total_size = None`
writes no key at all. -/
def UriFile.encode (u : UriFile) : Toml :=
  .table ([("mode", u.mode.encode), ("arch", .str u.arch)] ++
    (match u.total_size with
     | none => []
     | some n => [("total_size", Toml.int n)]) ++
    [("install_order", encodeStrList u.install_order),
     ("packages", .table (encodePackages u.packages))])

/-- Derived serde deserialisation of the whole `UriFile`. -/
def UriFile.decode (t : Toml) : Option UriFile :=
  match t with
  | .table kvs =>
    match tomlLookup kvs "mode", tomlLookup kvs "arch",
        tomlLookup kvs "install_order", tomlLookup kvs "packages" with
    | some mt, some (.str arch), some (.arr ol), some (.table ps) =>
      match RemoteMode.decode mt, decodeStrList ol, decodePackages ps with
      | some mode, some order, some packages =>
        match tomlLookup kvs "total_size" with
        | none => some ⟨mode, arch, none, order, packages⟩
        | some (.int n) => some ⟨mode, arch, some n, order, packages⟩
        | some _ => none
      | _, _, _ => none
    | _, _, _, _ => none
  | _ => none

/- ## URL parsing and URI validation (`src/uri.rs`) -/

/-- A character allowed after the first one of a URL scheme. -/
def schemeRestChar (c : Char) : Bool :=
  c.isAlphanum || c = '+' || c = '-' || c = '.'

/-- Split a character list at its first occurrence of `sep`; `none` when
`sep` does not occur. -/
def splitAtChar (sep : Char) : List Char → Option (List Char × List Char)
  | [] => none
  | c :: cs =>
    if c = sep then some ([], cs)
    else (splitAtChar sep cs).map (fun p => (c :: p.1, p.2))

/-- The parsed pieces of a URL that `validate_uri` inspects. -/
structure Url where
  scheme : String
  rest : String
deriving DecidableEq, Repr

/-- Models the external url crate's `Url::parse`, restricted to what the
sources inspect: the text must start with a valid scheme then `':'`
(otherwise the parse fails), the scheme is lower-cased, and for the special
network schemes a non-empty host must follow (a bare `"http:"` fails). -/
def Url.parse (s : String) : Option Url :=
  match splitAtChar ':' s.data with
  | none => none
  | some (schemeChars, restChars) =>
    match schemeChars with
    | [] => none
    | c0 :: cs =>
      if c0.isAlpha && cs.all schemeRestChar then
        let scheme := strToLower ⟨c0 :: cs⟩
        if scheme ∈ ["http", "https", "ws", "wss", "ftp"] then
          let afterSlashes := restChars.dropWhile (fun c => c = '/')
          let host := afterSlashes.takeWhile
            (fun c => c ≠ '/' && c ≠ '?' && c ≠ '#')
          if host = [] then none else some ⟨scheme, ⟨restChars⟩⟩
        else some ⟨scheme, ⟨restChars⟩⟩
      else none

/-- `validate_uri` (`uri.rs` lines 146–156): the URI must parse and use one
of the schemes `http`, `https`, `ftp`. Error strings follow the `anyhow`
messages of the source. -/
def validate_uri (uri : String) : Except String Unit :=
  match Url.parse uri with
  | none => .error ("Failed to parse URI: " ++ uri)
  | some u =>
    if u.scheme ∈ ["http", "https", "ftp"] then .ok ()
    else .error ("Unsupported scheme: " ++ u.scheme)

/-- The URI-validation loop of `UriFile::load` (`uri.rs` lines 110–113):
the first invalid package aborts the load with a message naming it. -/
def validatePackages : List (String × PackageEntry) → Except String Unit
  | [] => .ok ()
  | (k, p) :: rest =>
    match validate_uri p.uri with
    | .error e =>
      .error ("Invalid URI for package " ++ k ++ ": " ++ p.uri ++ ": " ++ e)
    | .ok _ => validatePackages rest

/-- `UriFile::save` (`uri.rs` lines 125–134): serialise the whole structure
in one write. The TOML text layer is external and taken as faithful, so the
model stops at the TOML value tree. -/
def UriFile.save (u : UriFile) : Toml :=
  u.encode

/-- `UriFile::load` (`uri.rs` lines 100–116): parse the TOML, then validate
every package URI; any failure rejects the whole manifest. -/
def UriFile.load (t : Toml) : Except String UriFile :=
  match UriFile.decode t with
  | none => .error "Failed to parse TOML"
  | some parsed =>
    match validatePackages parsed.packages with
    | .error e => .error e
    | .ok _ => .ok parsed

/- ## Resolution: checksum-field parsing (`src/commands/set.rs` lines 151–163) -/

/-- The checksum-field branch of the line parser in `set.rs`'s `run`:
an empty field is `None`; otherwise the part before the first `':'` is
lower-cased and mapped through `ChecksumKind::new` (failure is an error whose
`anyhow` context names the package file), and the part between the first and
second `':'` is the value. Rust's `.next().unwrap()` on a field with a known
kind but no `':'` panics. -/
def parseChecksumField (filename : String) (checksum_maybe : String) :
    RunRes (Option Checksum) :=
  if checksum_maybe = "" then .ok none
  else
    match splitOnChar ':' checksum_maybe.data with
    | [] => .panic "split produced no first element"
    | kindChars :: restParts =>
      let kind_str := strToLower ⟨kindChars⟩
      match ChecksumKind.new kind_str with
      | .error e =>
        .err (filename ++ " has no valid checksum kind (" ++ kind_str ++ "): "
          ++ e)
      | .ok kind =>
        match restParts with
        | [] => .panic "called Option::unwrap on a None value"
        | v :: _ => .ok (some ⟨kind, ⟨v⟩⟩)

/- ## Local Fetch (`src/commands/get.rs`) -/

/-- An externally visible action of the fetch loop. -/
inductive FetchEvent where
  | request (uri : String)
  | writeFile (path : String)
  | decompress (src dst : String)
  | removeFile (path : String)
  | reportErr (msg : String)
deriving DecidableEq, Repr

/-- Result of `client.get(uri).send()` followed by `error_for_status()`. -/
inductive HttpResult where
  | sendErr (msg : String)
  | badStatus (msg : String)
  | ok (body : String)
deriving DecidableEq, Repr

/-- Oracle for the HTTP client: the response each URI gets this run. -/
structure FetchEnv where
  httpRes : String → HttpResult

/-- The per-package closure of `get.rs`'s `run` (lines 62–137): skip when the
destination file exists; otherwise request the URI, report-and-continue on a
send error or (visibly only in Install mode) a bad status, write the body,
and in Update mode decompress a `.xz` download in place, deleting the
compressed original. The local filesystem is the list of existing paths;
`none` is the panic of `dest.extension().unwrap()` on an extension-less
name. -/
def fetchPackage (env : FetchEnv) (mode : RemoteMode) (downloadDir : String)
    (fs : List String) (fname : String) (pkg : PackageEntry) :
    Option (List FetchEvent × List String) :=
  let dest := pathJoin downloadDir fname
  if fs.contains dest then some ([], fs)
  else
    match env.httpRes pkg.uri with
    | .sendErr e =>
      some ([.request pkg.uri,
        .reportErr ("Failed to download " ++ fname ++ ": " ++ e)], fs)
    | .badStatus e =>
      some ([.request pkg.uri] ++
        (if mode = .Install then [.reportErr ("Bad response: " ++ e)] else []),
        fs)
    | .ok _body =>
      match extOf fname with
      | none => none
      | some ext =>
        let fs1 := dest :: fs
        if mode = .Update ∧ ext = "xz" then
          let outPath := pathJoin downloadDir (stripExtName fname)
          some ([.request pkg.uri, .writeFile dest,
            .decompress dest outPath, .removeFile dest],
            outPath :: fs1.erase dest)
        else
          some ([.request pkg.uri, .writeFile dest], fs1)

/-- The whole download batch of `get.rs`'s `run`. The source runs it with
`par_iter`; distinct packages touch distinct destination paths, so the model
linearises the batch in map iteration order. -/
def fetchRun (env : FetchEnv) (mode : RemoteMode) (downloadDir : String) :
    List (String × PackageEntry) → List String →
    Option (List FetchEvent × List String)
  | [], fs => some ([], fs)
  | (fname, pkg) :: rest, fs =>
    match fetchPackage env mode downloadDir fs fname pkg with
    | none => none
    | some (evs, fs') =>
      match fetchRun env mode downloadDir rest fs' with
      | none => none
      | some (evs', fs'') => some (evs ++ evs', fs'')

/- ## Remote Apply (`src/commands/install.rs`) -/

/-- An externally visible action of the `install` command. -/
inductive Event where
  | sshConnect (target : String)
  | exec (cmd : String)
  | sudo (cmd : String)
  | scpUpload (localPath remotePath : String)
  | promptPassword
  | loadManifest (path : String)
  | printMsg (msg : String)
deriving DecidableEq, Repr

/-- Oracle environment for a run of the `install` command: the outcome of
session creation, of the sudo-password prompt, and of each remote `exec`,
`sudo` and SCP upload. -/
structure RemoteEnv where
  sshRes : Except String Unit
  promptRes : Option String
  execRes : String → Except String String
  sudoRes : String → Except String String
  uploadRes : String → Except String Unit

/-- The output a successful `session.exec` of `c` yields under `env`
(unspecified filler when the exec fails). -/
def execOut (env : RemoteEnv) (c : String) : String :=
  match env.execRes c with
  | .ok out => out
  | .error _ => ""

/-- The checksum tool chosen from a checksum's kind
(`install.rs` lines 230–233). -/
def checksumTool : ChecksumKind → String
  | .SHA256 => "sha256sum"
  | .MD5 => "md5sum"

/-- The remote command `verify_remote_checksums` runs for one package. -/
def checksumCmd (remotePath fname : String) (cs : Checksum) : String :=
  checksumTool cs.kind ++ " " ++ pathJoin remotePath fname

/-- The upload loop of `upload_archive` (`install.rs` lines 155–182): one
SCP attempt per package in map order; a failure is reported (second
component collects the reported file names) and the loop continues. -/
def uploadGo (env : RemoteEnv) (archivePath remotePath : String) :
    List (String × PackageEntry) → List Event × List String
  | [] => ([], [])
  | (fname, _) :: rest =>
    let localP := pathJoin archivePath fname
    let ev := Event.scpUpload localP (pathJoin remotePath fname)
    let r := uploadGo env archivePath remotePath rest
    match env.uploadRes localP with
    | .error _ => (ev :: r.1, fname :: r.2)
    | .ok _ => (ev :: r.1, r.2)

/-- `upload_archive` (`install.rs` lines 131–190): runs the upload loop and
returns `Ok(())` unconditionally — per-file failures never abort it. -/
def upload_archive (env : RemoteEnv) (archivePath remotePath : String)
    (uri_file : UriFile) : (List Event × List String) × RunRes Unit :=
  (uploadGo env archivePath remotePath uri_file.packages, .ok ())

/-- The verification loop of `verify_remote_checksums`
(`install.rs` lines 216–256): one remote checksum command per package in map
order, collecting every `(file, expected, actual)` mismatch. An exec failure
aborts with the `anyhow` context of the source; a package whose `checksum`
is `None` hits `.as_ref().unwrap()` and panics. -/
def verifyGo (env : RemoteEnv) (remotePath : String)
    (acc : List (String × String × String)) :
    List (String × PackageEntry) →
    List Event × RunRes (List (String × String × String))
  | [] => ([], .ok acc)
  | (fname, pkg) :: rest =>
    match pkg.checksum with
    | none => ([], .panic "called Option::unwrap on a None value")
    | some cs =>
      let cmd := checksumCmd remotePath fname cs
      match env.execRes cmd with
      | .error e =>
        ([.exec cmd],
          .err ("Failed to compute " ++ checksumTool cs.kind ++ " for "
            ++ fname ++ ": " ++ e))
      | .ok output =>
        let actual := firstWord output
        let acc' :=
          if actual = cs.value then acc else acc ++ [(fname, cs.value, actual)]
        let r := verifyGo env remotePath acc' rest
        (.exec cmd :: r.1, r.2)

/-- `verify_remote_checksums` (`install.rs` lines 195–269): run the loop and
fail the whole phase when the collected mismatch list is non-empty. -/
def verify_remote_checksums (env : RemoteEnv) (remotePath : String)
    (uri_file : UriFile) : List Event × RunRes Unit :=
  match verifyGo env remotePath [] uri_file.packages with
  | (evs, .ok ms) =>
    (evs, if ms = [] then .ok () else .err "Remote checksum verification failed")
  | (evs, .err e) => (evs, .err e)
  | (evs, .panic m) => (evs, .panic m)

/-- The install loop of `install_archive` (`install.rs` lines 293–320): one
privileged `dpkg -i` per entry of `install_order`, in that order; a failure
is reported (second component) and the loop continues. -/
def installGo (env : RemoteEnv) (remotePath : String) :
    List String → List Event × List String
  | [] => ([], [])
  | fname :: rest =>
    let cmd := "dpkg -i " ++ pathJoin remotePath fname
    let r := installGo env remotePath rest
    match env.sudoRes cmd with
    | .error _ => (.sudo cmd :: r.1, fname :: r.2)
    | .ok _ => (.sudo cmd :: r.1, r.2)

/-- `install_archive` (`install.rs` lines 272–340): the install loop,
followed by a single final `dpkg --configure -a`, whose failure is also only
reported; the function returns `Ok(())` unconditionally. -/
def install_archive (env : RemoteEnv) (remotePath : String)
    (uri_file : UriFile) : (List Event × List String) × RunRes Unit :=
  let r := installGo env remotePath uri_file.install_order
  ((r.1 ++ [.sudo "dpkg --configure -a"], r.2), .ok ())

/-- The message `install` prints for an Update-mode manifest
(`install.rs` line 77). -/
def updateModeMsg : String :=
  "This uri file is in update mode: please run 'apt-remote update <NAME> --target <user@host>"

/-- `run` of the `install` command (`install.rs` lines 49–127), from session
creation onward, given the manifest the successful `UriFile::load` produced:
connect, detect the remote user, prompt for the sudo password, load the
manifest; in Update mode print a notice and return `Ok`; otherwise create
the remote working directory, upload, verify (on verification failure `cd`
home and return the error), install, move the archives into the apt cache
and remove the working directory. -/
def install_run (env : RemoteEnv) (name target cacheDir : String)
    (u : UriFile) : List Event × RunRes Unit :=
  match env.sshRes with
  | .error e => ([.sshConnect target], .err e)
  | .ok _ =>
  match env.execRes "whoami" with
  | .error e => ([.sshConnect target, .exec "whoami"], .err e)
  | .ok _ =>
  match env.promptRes with
  | none =>
    ([.sshConnect target, .exec "whoami", .promptPassword],
      .panic "called Option::unwrap on a None value")
  | some _password =>
    let pre : List Event := [.sshConnect target, .exec "whoami",
      .promptPassword, .loadManifest (pathJoin cacheDir "uri.toml")]
    if u.mode = .Update then
      (pre ++ [.printMsg updateModeMsg], .ok ())
    else
      let remoteStr := "/tmp/apt-remote/" ++ name
      let mkdirCmd := "mkdir -p " ++ remoteStr
      let cdCmd := "cd " ++ remoteStr
      match env.execRes mkdirCmd with
      | .error e => (pre ++ [.exec mkdirCmd], .err e)
      | .ok _ =>
      match env.execRes cdCmd with
      | .error e => (pre ++ [.exec mkdirCmd, .exec cdCmd], .err e)
      | .ok _ =>
        let up := upload_archive env (pathJoin cacheDir "debs") remoteStr u
        let v := verify_remote_checksums env remoteStr u
        let base := pre ++ [.exec mkdirCmd, .exec cdCmd] ++ up.1.1 ++ v.1
        match v.2 with
        | .panic m => (base, .panic m)
        | .err e =>
          match env.execRes "cd $HOME" with
          | .error e2 => (base ++ [.exec "cd $HOME"], .err e2)
          | .ok _ => (base ++ [.exec "cd $HOME"], .err e)
        | .ok _ =>
          let ins := install_archive env remoteStr u
          let mvCmd := "mv " ++ remoteStr ++ "/* /var/cache/apt/archives"
          let rmCmd := "rm -rf " ++ remoteStr
          match env.sudoRes mvCmd with
          | .error e => (base ++ ins.1.1 ++ [.sudo mvCmd], .err e)
          | .ok _ =>
            match env.execRes rmCmd with
            | .error e =>
              (base ++ ins.1.1 ++ [.sudo mvCmd, .exec rmCmd], .err e)
            | .ok _ =>
              (base ++ ins.1.1 ++ [.sudo mvCmd, .exec rmCmd], .ok ())

/-- One package is a mismatch under `env` when its recorded checksum differs
from the first word of the remote checksum tool's output. -/
def entryMismatch (env : RemoteEnv) (remotePath : String)
    (kp : String × PackageEntry) : Option (String × String × String) :=
  match kp.2.checksum with
  | none => none
  | some cs =>
    let actual := firstWord (execOut env (checksumCmd remotePath kp.1 cs))
    if actual = cs.value then none else some (kp.1, cs.value, actual)

/-- All mismatches of a manifest under `env`, in map iteration order. -/
def mismatchList (env : RemoteEnv) (remotePath : String)
    (packages : List (String × PackageEntry)) :
    List (String × String × String) :=
  packages.filterMap (entryMismatch env remotePath)

/- ## Concrete fixtures used by witnesses and counterexamples -/

/-- A package entry with a valid URI and a SHA256 checksum. -/
def exEntryHttp : PackageEntry :=
  ⟨"http://example.com/a.deb", 100, some ⟨.SHA256, "cafe"⟩⟩

/-- A package entry with a valid URI and no checksum. -/
def exEntryNoCk : PackageEntry :=
  ⟨"https://example.com/b.deb", 7, none⟩

/-- A package entry whose URI uses the disallowed `file` scheme. -/
def exEntryFile : PackageEntry :=
  ⟨"file:///x", 1, none⟩

/-- An Install manifest whose single entry carries a checksum. -/
def exManifestGood : UriFile :=
  ⟨.Install, "amd64", some 100, ["a.deb"], [("a.deb", exEntryHttp)]⟩

/-- An Upgrade manifest with `total_size = None` and a checksum-less entry. -/
def exManifestNone : UriFile :=
  ⟨.Upgrade, "arm64", none, ["b.deb"], [("b.deb", exEntryNoCk)]⟩

/-- An Install manifest containing a `file://` URI. -/
def exManifestBad : UriFile :=
  ⟨.Install, "amd64", some 1, ["p"], [("p", exEntryFile)]⟩

/-- An Install manifest mixing a checksum-less entry with a checksummed one
(whose recorded value will mismatch under `exEnvBeef`). -/
def exManifestMixed : UriFile :=
  ⟨.Install, "amd64", some 107, ["b.deb", "a.deb"],
    [("b.deb", exEntryNoCk), ("a.deb", exEntryHttp)]⟩

/-- An Update-mode manifest (used against the `install` command). -/
def exManifestUpdate : UriFile :=
  ⟨.Update, "amd64", none, [], [("example.com_dists_Packages.xz", exEntryHttp)]⟩

/-- A remote environment where every operation succeeds and every exec
prints `beef ...`, so a recorded checksum `cafe` mismatches. -/
def exEnvBeef : RemoteEnv :=
  ⟨.ok (), some "pw", fun _ => .ok "beef /tmp/apt-remote/img/a.deb",
    fun _ => .ok "", fun _ => .ok ()⟩

/-- A fetch environment whose every request succeeds. -/
def exFetchOk : FetchEnv :=
  ⟨fun _ => .ok "BODY"⟩

/- ## Round-trip of the TOML model -/

theorem checksum_roundtrip (c : Checksum) :
    Checksum.decode (Checksum.encode c) = some c := by
  cases c with
  | mk k v => cases k <;> rfl

theorem entry_roundtrip (p : PackageEntry) :
    PackageEntry.decode (PackageEntry.encode p) = some p := by
  cases p with
  | mk uri size cs =>
    cases cs with
    | none => rfl
    | some c =>
      simp [PackageEntry.encode, PackageEntry.decode, tomlLookup,
        checksum_roundtrip]

theorem packages_roundtrip (ps : List (String × PackageEntry)) :
    decodePackages (encodePackages ps) = some ps := by
  induction ps with
  | nil => rfl
  | cons kp rest ih =>
    simp [encodePackages, decodePackages, entry_roundtrip] at *
    simp [ih]

theorem strList_roundtrip (l : List String) :
    decodeStrList (l.map Toml.str) = some l := by
  induction l with
  | nil => rfl
  | cons s rest ih => simp [decodeStrList, ih]

theorem mode_roundtrip (m : RemoteMode) :
    RemoteMode.decode (RemoteMode.encode m) = some m := by
  cases m <;> rfl

theorem urifile_roundtrip (u : UriFile) :
    UriFile.decode (UriFile.encode u) = some u := by
  cases u with
  | mk mode arch total_size install_order packages =>
    cases total_size with
    | none =>
      simp [UriFile.encode, UriFile.decode, tomlLookup, encodeStrList,
        mode_roundtrip, strList_roundtrip, packages_roundtrip]
    | some n =>
      simp [UriFile.encode, UriFile.decode, tomlLookup, encodeStrList,
        mode_roundtrip, strList_roundtrip, packages_roundtrip]

/- ## Validation lemmas -/

theorem validatePackages_ok (ps : List (String × PackageEntry))
    (h : ∀ kp ∈ ps, (validate_uri kp.2.uri).isOk = true) :
    validatePackages ps = .ok () := by
  induction ps with
  | nil => rfl
  | cons kp rest ih =>
    have hk := h kp (by simp)
    obtain ⟨k, p⟩ := kp
    simp only [validatePackages]
    cases hv : validate_uri p.uri with
    | error e => rw [hv] at hk; simp [Except.isOk, Except.toBool] at hk
    | ok a => exact ih (fun x hx => h x (by simp [hx]))

theorem validatePackages_err (ps : List (String × PackageEntry))
    (h : ∃ kp ∈ ps, (validate_uri kp.2.uri).isOk = false) :
    ∃ k p e, (k, p) ∈ ps ∧ validate_uri p.uri = .error e ∧
      validatePackages ps =
        .error ("Invalid URI for package " ++ k ++ ": " ++ p.uri ++ ": " ++ e) := by
  induction ps with
  | nil => simp at h
  | cons kp rest ih =>
    obtain ⟨k0, p0⟩ := kp
    cases hv : validate_uri p0.uri with
    | error e =>
      exact ⟨k0, p0, e, by simp, hv, by simp [validatePackages, hv]⟩
    | ok a =>
      obtain ⟨kp1, hmem, hbad⟩ := h
      have hrest : ∃ kp ∈ rest, (validate_uri kp.2.uri).isOk = false := by
        rcases List.mem_cons.mp hmem with heq | hmem'
        · subst heq; rw [hv] at hbad; simp [Except.isOk, Except.toBool] at hbad
        · exact ⟨kp1, hmem', hbad⟩
      obtain ⟨k, p, e, hm, hval, hres⟩ := ih hrest
      exact ⟨k, p, e, by simp [hm], hval, by simp [validatePackages, hv, hres]⟩

theorem load_save_of_valid (u : UriFile)
    (h : ∀ kp ∈ u.packages, (validate_uri kp.2.uri).isOk = true) :
    UriFile.load (UriFile.save u) = .ok u := by
  unfold UriFile.load UriFile.save
  rw [urifile_roundtrip]
  simp [validatePackages_ok u.packages h]

/- ## Claim theorems: manifest persistence -/

/-- C4 (corrected): saving a `Manifest` and loading it back yields an equal
structure for every mode, optional total size, install order and optional
checksum — provided every package URI passes `validate_uri`, since `load`
re-validates URIs and rejects a manifest whose saved URIs are invalid. -/
theorem save_load_roundtrip (u : UriFile)
    (h : ∀ kp ∈ u.packages, (validate_uri kp.2.uri).isOk = true) :
    UriFile.load (UriFile.save u) = .ok u :=
  load_save_of_valid u h

/-- Witness for C4: the round-trip at a concrete Upgrade manifest with
`total_size = None` and a checksum-less entry. -/
theorem save_load_roundtrip_witness :
    UriFile.load (UriFile.save exManifestNone) = .ok exManifestNone :=
  save_load_roundtrip exManifestNone (by decide)

/-- Counterexample for C4 as frozen: a manifest whose entry uses a `file://`
URI saves fine but does not load back, so the round-trip fails for it. -/
theorem save_load_roundtrip_cex :
    UriFile.load (UriFile.save exManifestBad) ≠ .ok exManifestBad := by
  intro h
  rw [show UriFile.load (UriFile.save exManifestBad) =
    .error "Invalid URI for package p: file:///x: Unsupported scheme: file"
    from rfl] at h
  exact Except.noConfusion h

/-- C5: loading a saved manifest is all-or-nothing — when every package URI
parses with an allowed scheme the whole manifest is returned, and when any
package URI is malformed or has a disallowed scheme the load fails with an
error naming an offending package and its URI. -/
theorem load_validates_uris (u : UriFile) :
    ((∀ kp ∈ u.packages, (validate_uri kp.2.uri).isOk = true) →
      UriFile.load (UriFile.save u) = .ok u) ∧
    ((∃ kp ∈ u.packages, (validate_uri kp.2.uri).isOk = false) →
      ∃ k p e, (k, p) ∈ u.packages ∧ validate_uri p.uri = .error e ∧
        UriFile.load (UriFile.save u) =
          .error ("Invalid URI for package " ++ k ++ ": " ++ p.uri ++ ": " ++ e)) := by
  constructor
  · exact load_save_of_valid u
  · intro h
    obtain ⟨k, p, e, hm, hval, hres⟩ := validatePackages_err u.packages h
    refine ⟨k, p, e, hm, hval, ?_⟩
    unfold UriFile.load UriFile.save
    rw [urifile_roundtrip]
    simp [hres]

/-- Witness for C5: at the concrete manifest with a `file://` URI, the load
of the saved manifest fails with the error naming package `p`. -/
theorem load_validates_uris_witness :
    UriFile.load (UriFile.save exManifestBad) =
      .error "Invalid URI for package p: file:///x: Unsupported scheme: file" := by
  obtain ⟨k, p, e, hm, hval, hres⟩ :=
    (load_validates_uris exManifestBad).2 ⟨("p", exEntryFile), by decide, by decide⟩
  simp only [exManifestBad, List.mem_singleton, Prod.mk.injEq] at hm
  obtain ⟨hk, hp⟩ := hm
  subst hk
  subst hp
  have he : e = "Unsupported scheme: file" := by
    have h2 : Except.error (α := Unit) "Unsupported scheme: file" =
        Except.error e := by rw [← hval]; rfl
    exact (Except.error.inj h2).symm
  subst he
  exact hres

/- ## Split lemmas for the checksum-field parser -/

theorem splitOnChar_no_sep (sep : Char) (v : List Char) (h : sep ∉ v) :
    splitOnChar sep v = [v] := by
  induction v with
  | nil => rfl
  | cons c cs ih =>
    have hc : c ≠ sep := fun he => h (he ▸ List.mem_cons_self c cs)
    have hcs : sep ∉ cs := fun hm => h (List.mem_cons_of_mem c hm)
    simp [splitOnChar, hc, ih hcs]

theorem splitOnChar_append (sep : Char) (kind v : List Char)
    (hk : sep ∉ kind) :
    splitOnChar sep (kind ++ sep :: v) = kind :: splitOnChar sep v := by
  induction kind with
  | nil => simp [splitOnChar]
  | cons c cs ih =>
    have hc : c ≠ sep := fun he => hk (he ▸ List.mem_cons_self c cs)
    have hcs : sep ∉ cs := fun hm => hk (List.mem_cons_of_mem c hm)
    simp [splitOnChar, hc, ih hcs]

/- ## Claim theorem: Resolution's checksum-field parsing -/

/-- C3: in the line parser of `set`, an empty checksum field is `None` and
no error; a `kind:value` field whose (lower-cased) kind names the SHA256 or
MD5 checksum tool yields `Some` checksum of that kind and value; any other
kind is a hard error whose message names the offending package file. -/
theorem parse_checksum_field_spec (filename : String) (kind v : List Char)
    (hk : ':' ∉ kind) (hv : ':' ∉ v) :
    parseChecksumField filename "" = .ok none ∧
    (strToLower ⟨kind⟩ = "sha256sum" →
      parseChecksumField filename ⟨kind ++ ':' :: v⟩ =
        .ok (some ⟨.SHA256, ⟨v⟩⟩)) ∧
    (strToLower ⟨kind⟩ = "md5sum" →
      parseChecksumField filename ⟨kind ++ ':' :: v⟩ =
        .ok (some ⟨.MD5, ⟨v⟩⟩)) ∧
    (strToLower ⟨kind⟩ ≠ "sha256sum" → strToLower ⟨kind⟩ ≠ "md5sum" →
      parseChecksumField filename ⟨kind ++ ':' :: v⟩ =
        .err (filename ++ " has no valid checksum kind (" ++ strToLower ⟨kind⟩
          ++ "): " ++ "Checksum not valid")) := by
  have hne : (⟨kind ++ ':' :: v⟩ : String) ≠ "" := by
    intro h
    have := congrArg String.data h
    simp at this
  have hsplit : splitOnChar ':' (String.data ⟨kind ++ ':' :: v⟩) =
      kind :: [v] := by
    show splitOnChar ':' (kind ++ ':' :: v) = kind :: [v]
    rw [splitOnChar_append ':' kind v hk, splitOnChar_no_sep ':' v hv]
  refine ⟨rfl, ?_, ?_, ?_⟩
  · intro hsha
    simp only [parseChecksumField, if_neg hne, hsplit, ChecksumKind.new, hsha,
      if_pos rfl]
    simp
  · intro hmd5
    have hne2 : strToLower ⟨kind⟩ ≠ "sha256sum" := by
      rw [hmd5]; intro h; exact absurd (congrArg String.data h) (by decide)
    simp only [parseChecksumField, if_neg hne, hsplit, ChecksumKind.new, hmd5,
      if_neg hne2]
    simp
  · intro h1 h2
    simp only [parseChecksumField, if_neg hne, hsplit, ChecksumKind.new,
      if_neg h1, if_neg h2]

/-- Witness for C3 at concrete fields: empty field, a `SHA256sum:` field, an
`MD5Sum:` field, and the unrecognised kind `SHA256` which is a hard error
naming the package. -/
theorem parse_checksum_field_witness :
    parseChecksumField "curl.deb" "" = .ok none ∧
    parseChecksumField "curl.deb" "SHA256sum:abc" =
      .ok (some ⟨.SHA256, "abc"⟩) ∧
    parseChecksumField "curl.deb" "MD5Sum:0d" = .ok (some ⟨.MD5, "0d"⟩) ∧
    parseChecksumField "curl.deb" "SHA256:abc" =
      .err "curl.deb has no valid checksum kind (sha256): Checksum not valid" :=
  ⟨(parse_checksum_field_spec "curl.deb" "SHA256sum".data "abc".data
      (by decide) (by decide)).1,
   (parse_checksum_field_spec "curl.deb" "SHA256sum".data "abc".data
      (by decide) (by decide)).2.1 (by decide),
   (parse_checksum_field_spec "curl.deb" "MD5Sum".data "0d".data
      (by decide) (by decide)).2.2.1 (by decide),
   by
     have h := (parse_checksum_field_spec "curl.deb" "SHA256".data "abc".data
       (by decide) (by decide)).2.2.2 (by decide) (by decide)
     exact h⟩

/- ## Extension lemmas for the fetch model -/

theorem afterLastDot_length (l e : List Char) (h : afterLastDot l = some e) :
    e.length + 1 ≤ l.length := by
  induction l with
  | nil => simp [afterLastDot] at h
  | cons c cs ih =>
    simp only [afterLastDot] at h
    cases hrec : afterLastDot cs with
    | some e' =>
      rw [hrec] at h
      have he : e' = e := by simpa using h
      subst he
      exact Nat.le_succ_of_le (ih hrec)
    | none =>
      rw [hrec] at h
      by_cases hc : c = '.'
      · rw [if_pos hc] at h
        have : cs = e := by simpa using h
        subst this
        simp
      · rw [if_neg hc] at h
        simp at h

theorem extOf_length (fname : String) (e : String)
    (h : extOf fname = some e) : e.data.length + 1 ≤ fname.data.length := by
  cases hd : fname.data with
  | nil => simp only [extOf, hd] at h; exact Option.noConfusion h
  | cons c0 rest =>
    simp only [extOf, hd] at h
    by_cases hc : c0 = '.'
    · rw [if_pos hc] at h
      cases ha : afterLastDot rest with
      | none => rw [ha] at h; simp at h
      | some e' =>
        rw [ha] at h
        have he : (⟨e'⟩ : String) = e := by simpa using h
        have hlen := afterLastDot_length rest e' ha
        rw [← he]
        show e'.length + 1 ≤ rest.length + 1
        omega
    · rw [if_neg hc] at h
      cases ha : afterLastDot (c0 :: rest) with
      | none => rw [ha] at h; simp at h
      | some e' =>
        rw [ha] at h
        have he : (⟨e'⟩ : String) = e := by simpa using h
        have hlen := afterLastDot_length (c0 :: rest) e' ha
        rw [← he]
        simpa using hlen

theorem stripExtName_ne (fname e : String) (h : extOf fname = some e) :
    stripExtName fname ≠ fname := by
  intro heq
  have hlen := extOf_length fname e h
  have hd : (stripExtName fname).data = fname.data := congrArg String.data heq
  simp only [stripExtName, h] at hd
  have hl : (fname.data.take (fname.data.length - (e.data.length + 1))).length
      = fname.data.length := by rw [hd]
  rw [List.length_take] at hl
  omega

theorem pathJoin_right_inj (base a b : String)
    (h : pathJoin base a = pathJoin base b) : a = b := by
  have hd := congrArg String.data h
  simp only [pathJoin, String.data_append] at hd
  exact congrArg String.mk (List.append_cancel_left hd)

theorem fetchPackage_skip (env : FetchEnv) (mode : RemoteMode)
    (dir : String) (fs : List String) (fname : String) (pkg : PackageEntry)
    (hc : fs.contains (pathJoin dir fname) = true) :
    fetchPackage env mode dir fs fname pkg = some ([], fs) := by
  simp only [fetchPackage]
  rw [hc]
  rfl

theorem fetchPackage_xz (env : FetchEnv) (dir : String) (fs : List String)
    (fname : String) (pkg : PackageEntry) (body : String)
    (hxz : extOf fname = some "xz")
    (hok : env.httpRes pkg.uri = .ok body)
    (habs : fs.contains (pathJoin dir fname) = false) :
    fetchPackage env .Update dir fs fname pkg =
      some ([.request pkg.uri, .writeFile (pathJoin dir fname),
        .decompress (pathJoin dir fname) (pathJoin dir (stripExtName fname)),
        .removeFile (pathJoin dir fname)],
        pathJoin dir (stripExtName fname) :: fs) := by
  simp only [fetchPackage]
  rw [habs]
  rw [if_neg Bool.false_ne_true]
  simp only [hok, hxz]
  rw [if_pos (by simp)]
  rw [List.erase_cons_head]

/- ## Claim theorems: Local Fetch -/

/-- C8: a package whose destination file already exists is skipped with
success and no event at all (in particular no HTTP request), and a whole
fetch run over a manifest whose every destination exists performs no
action and leaves the filesystem unchanged. -/
theorem fetch_skips_existing (env : FetchEnv) (mode : RemoteMode)
    (dir : String) (packages : List (String × PackageEntry))
    (fs : List String)
    (h : ∀ kp ∈ packages, fs.contains (pathJoin dir kp.1) = true) :
    fetchRun env mode dir packages fs = some ([], fs) ∧
    (∀ fname pkg, fs.contains (pathJoin dir fname) = true →
      fetchPackage env mode dir fs fname pkg = some ([], fs)) := by
  constructor
  · induction packages with
    | nil => rfl
    | cons kp rest ih =>
      obtain ⟨fname, pkg⟩ := kp
      have h1 := h (fname, pkg) (by simp)
      simp only [fetchRun,
        fetchPackage_skip env mode dir fs fname pkg h1,
        ih (fun x hx => h x (by simp [hx]))]
      rfl
  · intro fname pkg hc
    exact fetchPackage_skip env mode dir fs fname pkg hc

/-- Witness for C8: a one-package manifest whose destination is already in
the cache is fetched with zero events. -/
theorem fetch_skips_existing_witness :
    fetchRun exFetchOk .Install "/c/img/debs" [("a.deb", exEntryHttp)]
      ["/c/img/debs/a.deb"] = some ([], ["/c/img/debs/a.deb"]) ∧
    (∀ fname pkg,
      List.contains ["/c/img/debs/a.deb"] (pathJoin "/c/img/debs" fname) = true →
      fetchPackage exFetchOk .Install "/c/img/debs" ["/c/img/debs/a.deb"]
        fname pkg = some ([], ["/c/img/debs/a.deb"])) :=
  fetch_skips_existing exFetchOk .Install "/c/img/debs"
    [("a.deb", exEntryHttp)] ["/c/img/debs/a.deb"] (by decide)

/-- C9: in Update mode a successful download of a `.xz` entry is
decompressed to the name without the final extension and the compressed
original removed; since the presence check looks for the compressed name,
running the same step again issues another HTTP request even though the
decompressed file is present. -/
theorem fetch_update_xz_redownload (env : FetchEnv) (dir : String)
    (fs : List String) (fname : String) (pkg : PackageEntry) (body : String)
    (hxz : extOf fname = some "xz")
    (hok : env.httpRes pkg.uri = .ok body)
    (habs : fs.contains (pathJoin dir fname) = false) :
    fetchPackage env .Update dir fs fname pkg =
      some ([.request pkg.uri, .writeFile (pathJoin dir fname),
        .decompress (pathJoin dir fname) (pathJoin dir (stripExtName fname)),
        .removeFile (pathJoin dir fname)],
        pathJoin dir (stripExtName fname) :: fs) ∧
    (∃ evs2 fs2,
      fetchPackage env .Update dir (pathJoin dir (stripExtName fname) :: fs)
        fname pkg = some (evs2, fs2) ∧ FetchEvent.request pkg.uri ∈ evs2) := by
  have hne : pathJoin dir (stripExtName fname) ≠ pathJoin dir fname := by
    intro h
    exact stripExtName_ne fname "xz" hxz (pathJoin_right_inj dir _ _ h)
  refine ⟨fetchPackage_xz env dir fs fname pkg body hxz hok habs, ?_⟩
  have habs2 : (pathJoin dir (stripExtName fname) :: fs).contains
      (pathJoin dir fname) = false := by
    simp only [List.contains_cons, Bool.or_eq_false_iff]
    constructor
    · simp only [beq_eq_false_iff_ne, ne_eq]
      exact fun h => hne h.symm
    · exact habs
  exact ⟨_, _, fetchPackage_xz env dir _ fname pkg body hxz hok habs2, by simp⟩

/-- Witness for C9: the concrete Update-mode index file
`Packages.xz`, downloaded, decompressed to `Packages`, original removed,
and requested again on the next run. -/
theorem fetch_update_xz_redownload_witness :
    fetchPackage exFetchOk .Update "/c/img/sources" [] "Packages.xz"
      exEntryHttp =
      some ([.request "http://example.com/a.deb",
        .writeFile "/c/img/sources/Packages.xz",
        .decompress "/c/img/sources/Packages.xz" "/c/img/sources/Packages",
        .removeFile "/c/img/sources/Packages.xz"],
        ["/c/img/sources/Packages"]) ∧
    (∃ evs2 fs2,
      fetchPackage exFetchOk .Update "/c/img/sources"
        ["/c/img/sources/Packages"] "Packages.xz" exEntryHttp =
        some (evs2, fs2) ∧
        FetchEvent.request "http://example.com/a.deb" ∈ evs2) :=
  fetch_update_xz_redownload exFetchOk "/c/img/sources" []
    "Packages.xz" exEntryHttp "BODY" (by decide) rfl (by decide)

/- ## Loop lemmas for the Apply phase -/

theorem uploadGo_events (env : RemoteEnv) (a r : String)
    (ps : List (String × PackageEntry)) :
    (uploadGo env a r ps).1 =
      ps.map (fun kp => Event.scpUpload (pathJoin a kp.1) (pathJoin r kp.1)) := by
  induction ps with
  | nil => rfl
  | cons kp rest ih =>
    obtain ⟨fname, pkg⟩ := kp
    simp only [uploadGo]
    cases env.uploadRes (pathJoin a fname) with
    | error e => simp [ih]
    | ok v => simp [ih]

theorem uploadGo_failures (env : RemoteEnv) (a r : String)
    (ps : List (String × PackageEntry)) :
    (uploadGo env a r ps).2 =
      ps.filterMap (fun kp =>
        match env.uploadRes (pathJoin a kp.1) with
        | .error _ => some kp.1
        | .ok _ => none) := by
  induction ps with
  | nil => rfl
  | cons kp rest ih =>
    obtain ⟨fname, pkg⟩ := kp
    simp only [uploadGo, List.filterMap_cons]
    cases env.uploadRes (pathJoin a fname) with
    | error e => simp [ih]
    | ok v => simp [ih]

theorem installGo_events (env : RemoteEnv) (r : String) (l : List String) :
    (installGo env r l).1 =
      l.map (fun f => Event.sudo ("dpkg -i " ++ pathJoin r f)) := by
  induction l with
  | nil => rfl
  | cons f rest ih =>
    simp only [installGo]
    cases env.sudoRes ("dpkg -i " ++ pathJoin r f) with
    | error e => simp [ih]
    | ok v => simp [ih]

theorem installGo_failures (env : RemoteEnv) (r : String) (l : List String) :
    (installGo env r l).2 =
      l.filterMap (fun f =>
        match env.sudoRes ("dpkg -i " ++ pathJoin r f) with
        | .error _ => some f
        | .ok _ => none) := by
  induction l with
  | nil => rfl
  | cons f rest ih =>
    simp only [installGo, List.filterMap_cons]
    cases env.sudoRes ("dpkg -i " ++ pathJoin r f) with
    | error e => simp [ih]
    | ok v => simp [ih]

theorem verifyGo_closed (env : RemoteEnv) (rp : String)
    (ps : List (String × PackageEntry))
    (hck : ∀ kp ∈ ps, kp.2.checksum ≠ none)
    (hexec : ∀ c, env.execRes c = .ok (execOut env c)) :
    ∀ acc, ∃ evs, verifyGo env rp acc ps = (evs, .ok (acc ++ mismatchList env rp ps))
      ∧ ∀ s, Event.sudo s ∉ evs := by
  induction ps with
  | nil => intro acc; exact ⟨[], by simp [verifyGo, mismatchList], by simp⟩
  | cons kp rest ih =>
    intro acc
    obtain ⟨fname, pkg⟩ := kp
    have hck0 := hck (fname, pkg) (by simp)
    cases hcs : pkg.checksum with
    | none => exact absurd hcs hck0
    | some cs =>
      have ihr := ih (fun x hx => hck x (by simp [hx]))
      simp only [verifyGo, hcs, hexec (checksumCmd rp fname cs)]
      have hmm : mismatchList env rp ((fname, pkg) :: rest) =
          (match entryMismatch env rp (fname, pkg) with
           | some m => m :: mismatchList env rp rest
           | none => mismatchList env rp rest) := by
        simp only [mismatchList, List.filterMap_cons]
        cases entryMismatch env rp (fname, pkg) <;> simp
      by_cases hv : firstWord (execOut env (checksumCmd rp fname cs)) = cs.value
      · obtain ⟨evs, heq, hns⟩ := ihr acc
        refine ⟨Event.exec (checksumCmd rp fname cs) :: evs, ?_, ?_⟩
        · simp only [if_pos hv, heq, hmm]
          have hem : entryMismatch env rp (fname, pkg) = none := by
            simp only [entryMismatch, hcs, if_pos hv]
          rw [hem]
        · intro s hs
          rcases List.mem_cons.mp hs with h | h
          · exact Event.noConfusion h
          · exact hns s h
      · obtain ⟨evs, heq, hns⟩ := ihr (acc ++
          [(fname, cs.value, firstWord (execOut env (checksumCmd rp fname cs)))])
        refine ⟨Event.exec (checksumCmd rp fname cs) :: evs, ?_, ?_⟩
        · simp only [if_neg hv, heq, hmm]
          have hem : entryMismatch env rp (fname, pkg) =
              some (fname, cs.value,
                firstWord (execOut env (checksumCmd rp fname cs))) := by
            simp only [entryMismatch, hcs, if_neg hv]
          rw [hem]
          simp
        · intro s hs
          rcases List.mem_cons.mp hs with h | h
          · exact Event.noConfusion h
          · exact hns s h

theorem verify_closed (env : RemoteEnv) (rp : String) (u : UriFile)
    (hck : ∀ kp ∈ u.packages, kp.2.checksum ≠ none)
    (hexec : ∀ c, env.execRes c = .ok (execOut env c))
    (hmis : mismatchList env rp u.packages ≠ []) :
    ∃ evs, verify_remote_checksums env rp u =
      (evs, .err "Remote checksum verification failed")
      ∧ ∀ s, Event.sudo s ∉ evs := by
  obtain ⟨evs, heq, hns⟩ := verifyGo_closed env rp u.packages hck hexec []
  refine ⟨evs, ?_, hns⟩
  simp only [verify_remote_checksums, heq, List.nil_append]
  rw [if_neg hmis]

/- ## Claim theorems: Remote Apply -/

/-- C6: the install step issues exactly one privileged `dpkg -i` per entry
of `install_order`, in exactly that order, followed by a single final
`dpkg --configure -a`. -/
theorem install_archive_order (env : RemoteEnv) (remotePath : String)
    (u : UriFile) :
    (install_archive env remotePath u).1.1 =
      u.install_order.map
        (fun f => Event.sudo ("dpkg -i " ++ pathJoin remotePath f))
        ++ [Event.sudo "dpkg --configure -a"] := by
  simp only [install_archive, installGo_events]

/-- C7: per-item failures in the upload and install loops are reported but
never abort the loop — every file of the package map gets its upload
attempt, every entry of `install_order` gets its install attempt, the
reported failure lists are exactly the failing items, and both
`upload_archive` and `install_archive` return `Ok` for every oracle. -/
theorem best_effort_loops (env : RemoteEnv) (archivePath remotePath : String)
    (u : UriFile) :
    (upload_archive env archivePath remotePath u).2 = .ok () ∧
    (upload_archive env archivePath remotePath u).1.1 =
      u.packages.map (fun kp =>
        Event.scpUpload (pathJoin archivePath kp.1) (pathJoin remotePath kp.1)) ∧
    (upload_archive env archivePath remotePath u).1.2 =
      u.packages.filterMap (fun kp =>
        match env.uploadRes (pathJoin archivePath kp.1) with
        | .error _ => some kp.1
        | .ok _ => none) ∧
    (install_archive env remotePath u).2 = .ok () ∧
    (install_archive env remotePath u).1.1 =
      u.install_order.map
        (fun f => Event.sudo ("dpkg -i " ++ pathJoin remotePath f))
        ++ [Event.sudo "dpkg --configure -a"] ∧
    (install_archive env remotePath u).1.2 =
      u.install_order.filterMap (fun f =>
        match env.sudoRes ("dpkg -i " ++ pathJoin remotePath f) with
        | .error _ => some f
        | .ok _ => none) :=
  ⟨rfl, uploadGo_events env archivePath remotePath u.packages,
    uploadGo_failures env archivePath remotePath u.packages, rfl,
    by simp only [install_archive, installGo_events],
    by simp only [install_archive, installGo_failures]⟩

/-- C1 (corrected): for a non-Update manifest whose entries all carry
checksums, when at least one uploaded artifact's remote checksum differs
from the recorded value (and the transport itself works), the Apply run
returns the verification error, the verification loop has collected exactly
the set of mismatching entries, and no privileged command — in particular no
per-package `dpkg -i` — is ever issued. The all-entries-carry-checksums
restriction is forced: on a manifest with a checksum-less entry the
verification step panics instead (see the counterexample below and C2). -/
theorem install_checksum_gate (env : RemoteEnv)
    (name target cacheDir : String) (u : UriFile)
    (hmode : u.mode ≠ .Update)
    (hssh : env.sshRes = .ok ())
    (hprompt : env.promptRes.isSome = true)
    (hexec : ∀ c, env.execRes c = .ok (execOut env c))
    (hck : ∀ kp ∈ u.packages, kp.2.checksum ≠ none)
    (hmis : mismatchList env ("/tmp/apt-remote/" ++ name) u.packages ≠ []) :
    (install_run env name target cacheDir u).2 =
      .err "Remote checksum verification failed" ∧
    (verifyGo env ("/tmp/apt-remote/" ++ name) [] u.packages).2 =
      .ok (mismatchList env ("/tmp/apt-remote/" ++ name) u.packages) ∧
    ∀ s, Event.sudo s ∉ (install_run env name target cacheDir u).1 := by
  obtain ⟨pw, hpw⟩ := Option.isSome_iff_exists.mp hprompt
  obtain ⟨vevs, hveq0, hvns⟩ :=
    verifyGo_closed env ("/tmp/apt-remote/" ++ name) u.packages hck hexec []
  have hveq : verify_remote_checksums env ("/tmp/apt-remote/" ++ name) u =
      (vevs, .err "Remote checksum verification failed") := by
    simp only [verify_remote_checksums, hveq0, List.nil_append]
    rw [if_neg hmis]
  have hrun : install_run env name target cacheDir u =
      ([.sshConnect target, .exec "whoami", .promptPassword,
        .loadManifest (pathJoin cacheDir "uri.toml")] ++
        [.exec ("mkdir -p " ++ ("/tmp/apt-remote/" ++ name)),
         .exec ("cd " ++ ("/tmp/apt-remote/" ++ name))] ++
        (uploadGo env (pathJoin cacheDir "debs") ("/tmp/apt-remote/" ++ name)
          u.packages).1 ++ vevs ++ [.exec "cd $HOME"],
        .err "Remote checksum verification failed") := by
    simp only [install_run, hssh, hpw, hexec, if_neg hmode, upload_archive,
      hveq]
  refine ⟨by rw [hrun], ?_, ?_⟩
  · rw [hveq0]
    simp
  · intro s hs
    rw [hrun] at hs
    simp only [List.mem_append] at hs
    rcases hs with (((h | h) | h) | h) | h
    · simp at h
    · simp at h
    · rw [uploadGo_events] at h
      obtain ⟨kp, _, heq⟩ := List.mem_map.mp h
      exact Event.noConfusion heq
    · exact hvns s h
    · simp at h

/-- Witness for C1: a concrete manifest whose single entry records checksum
`cafe` while every remote checksum command prints `beef ...`. -/
theorem install_checksum_gate_witness :
    (install_run exEnvBeef "img" "u@h" "/c/img" exManifestGood).2 =
      .err "Remote checksum verification failed" ∧
    (verifyGo exEnvBeef ("/tmp/apt-remote/" ++ "img") []
      exManifestGood.packages).2 =
      .ok (mismatchList exEnvBeef ("/tmp/apt-remote/" ++ "img")
        exManifestGood.packages) ∧
    ∀ s, Event.sudo s ∉
      (install_run exEnvBeef "img" "u@h" "/c/img" exManifestGood).1 :=
  install_checksum_gate exEnvBeef "img" "u@h" "/c/img" exManifestGood
    (by decide) rfl rfl (fun c => rfl) (by decide) (by decide)

/-- Counterexample for C1 as frozen ("for every manifest in Install/Upgrade
mode"): on a concrete Install manifest mixing a checksum-less entry with a
mismatching checksummed one, at least one uploaded artifact's remote
checksum differs from the recorded value, yet the Apply run panics at the
checksum-less entry — it neither collects the mismatch set nor returns an
error. -/
theorem install_checksum_gate_cex :
    mismatchList exEnvBeef ("/tmp/apt-remote/" ++ "img")
      exManifestMixed.packages ≠ [] ∧
    (install_run exEnvBeef "img" "u@h" "/c/img" exManifestMixed).2 =
      .panic "called Option::unwrap on a None value" ∧
    (verifyGo exEnvBeef ("/tmp/apt-remote/" ++ "img") []
      exManifestMixed.packages).2 =
      .panic "called Option::unwrap on a None value" :=
  ⟨by decide, rfl, rfl⟩

/-- C2: evaluating the verification step on a manifest whose entry has no
checksum does not skip the entry — it hits `.as_ref().unwrap()` on `None`
and panics, for every oracle environment and remote path, and so does the
whole Apply run. -/
theorem verify_panics_on_missing_checksum (env : RemoteEnv) (rp : String) :
    (verify_remote_checksums env rp exManifestNone).2 =
      .panic "called Option::unwrap on a None value" ∧
    (install_run exEnvBeef "img" "u@h" "/c/img" exManifestNone).2 =
      .panic "called Option::unwrap on a None value" :=
  ⟨rfl, rfl⟩

/-- C10: on an Update-mode manifest the `install` command returns `Ok`
having done nothing beyond connecting, detecting the remote user, prompting
for the sudo password, loading the manifest and printing a notice — no
upload, verification or install event occurs, but the SSH session and the
password prompt have already happened. -/
theorem install_update_mode_noop (env : RemoteEnv)
    (name target cacheDir : String) (u : UriFile)
    (hmode : u.mode = .Update)
    (hssh : env.sshRes = .ok ())
    (hwho : ∃ o, env.execRes "whoami" = .ok o)
    (hprompt : env.promptRes.isSome = true) :
    install_run env name target cacheDir u =
      ([.sshConnect target, .exec "whoami", .promptPassword,
        .loadManifest (pathJoin cacheDir "uri.toml"),
        .printMsg updateModeMsg], .ok ()) := by
  obtain ⟨pw, hpw⟩ := Option.isSome_iff_exists.mp hprompt
  obtain ⟨o, hwho⟩ := hwho
  simp only [install_run, hssh, hwho, hpw, if_pos hmode]
  rfl

/-- Witness for C10 at a concrete Update manifest and an all-ok
environment. -/
theorem install_update_mode_noop_witness :
    install_run exEnvBeef "img" "u@h" "/c/img" exManifestUpdate =
      ([.sshConnect "u@h", .exec "whoami", .promptPassword,
        .loadManifest (pathJoin "/c/img" "uri.toml"),
        .printMsg updateModeMsg], .ok ()) :=
  install_update_mode_noop exEnvBeef "img" "u@h" "/c/img" exManifestUpdate
    rfl rfl ⟨"beef /tmp/apt-remote/img/a.deb", rfl⟩ rfl

end AptRemote
